import Mathlib

/-!
# Launchd service manager, Homebrew probe and the default init-system provider

A shallow embedding of `initsystem/launchd.go`, `initsystem/defaultprovider.go`
and `packagemanager/homebrew.go`.

Conventions of the embedding

* Go `string` is `String`; text functions work on the character list `String.data`.
* Go `error` is `Option Error`, with `none` for `nil`.
* The connection (`exec.ContextRunner`) is an interface whose declaration is not part
  of the embedded files.  It is taken as a parameter: a record of its three methods.
  Every method call is appended to a log of calls, and the answer of the connection
  may depend on the calls made before, so a connection can answer a repeated command
  differently.
* The `context.Context` argument is dropped: none of the embedded functions
  inspects it.
* The functions of the Go standard library and of `shellescape` that the code calls
  (`strings.Split`, `strconv.QuoteToASCII`, `path.Join`, `fmt.Errorf`, `sync.OnceValue`,
  `shellescape.Quote`) are given as executable definitions of their documented
  behaviour, over strings of Unicode characters.
-/

namespace Rig

/-! ## Errors -/

/-- A Go error value: either a plain error made with `errors.New` (or any error
produced by the connection), or an error made by `fmt.Errorf` with a `%w` verb,
which carries its formatted message and the error it wraps. -/
inductive Error where
  | New (msg : String)
  | Wrap (msg : String) (err : Error)
deriving DecidableEq, Repr

/-- The message of the error, the result of its `Error()` method. -/
def Error.Message : Error → String
  | .New msg => msg
  | .Wrap msg _ => msg

/-- The `Unwrap()` method: the wrapped error, if there is one. -/
def Error.Unwrap : Error → Option Error
  | .New _ => none
  | .Wrap _ err => some err

/-! ## The connection -/

/-- A command handed to the connection: the format template and the arguments that
follow it, in the order of the call. -/
structure Command where
  format : String
  args : List String
deriving DecidableEq, Repr

/-- One method call made on the connection. -/
inductive Call where
  | ExecContext (cmd : Command)
  | ExecOutputContext (cmd : Command)
deriving DecidableEq, Repr

/-- The methods of `exec.ContextRunner` used by the embedded code.  The first
argument of the two executing methods is the log of the calls made so far. -/
structure ContextRunner where
  IsWindows : Bool
  ExecContext : List Call → Command → Option Error
  ExecOutputContext : List Call → Command → String × Option Error

/-- Calling `h.ExecContext(ctx, format, args...)`: the error of the connection and the
log extended by this call. -/
def ContextRunner.doExec (h : ContextRunner) (cmd : Command) (log : List Call) :
    Option Error × List Call :=
  (h.ExecContext log cmd, log ++ [Call.ExecContext cmd])

/-- Calling `h.ExecOutputContext(ctx, format, args...)`: output and error of the
connection and the log extended by this call. -/
def ContextRunner.doExecOutput (h : ContextRunner) (cmd : Command) (log : List Call) :
    (String × Option Error) × List Call :=
  (h.ExecOutputContext log cmd, log ++ [Call.ExecOutputContext cmd])


/-! ## Library functions used by the embedded code -/

namespace strings

/-- Worker of `ReplaceAll` for a one-character `old`: every occurrence of `old` is
replaced by the characters of `new`. -/
def replaceChar (old : Char) (new : List Char) : List Char → List Char
  | [] => []
  | c :: cs => (if c = old then new else [c]) ++ replaceChar old new cs

/-- Worker of `Split` for a non-empty separator: `skip` counts the characters of a
separator just matched that are still to be passed over, `cur` holds the piece read
so far, in reverse. -/
def splitGo (sep : List Char) : Nat → List Char → List Char → List (List Char)
  | _, cur, [] => [cur.reverse]
  | skip + 1, cur, _ :: cs => splitGo sep skip cur cs
  | 0, cur, c :: cs =>
    if sep.isPrefixOf (c :: cs) then cur.reverse :: splitGo sep (sep.length - 1) [] cs
    else splitGo sep 0 (c :: cur) cs

/-- The library function `strings.Split(s, sep)`: the pieces of `s` between the
occurrences of `sep`, read from the left.  With an empty `sep` the string is cut
after every character. -/
def Split (s sep : String) : List String :=
  if sep.data = [] then s.data.map (fun c => String.mk [c])
  else (splitGo sep.data 0 [] s.data).map String.mk

end strings

namespace shellescape

/-- The characters the pattern of the library lets through unquoted: ASCII letters,
digits, the underscore, and the signs `@ % + = : , .` and `-` and the slash. -/
def isSafeChar (c : Char) : Bool :=
  ('a' ≤ c && c ≤ 'z') || ('A' ≤ c && c ≤ 'Z') || ('0' ≤ c && c ≤ '9') || c = '_' ||
  c = '@' || c = '%' || c = '+' || c = '=' || c = ':' || c = ',' || c = '.' ||
  c = '/' || c = '-'

/-- The library function `shellescape.Quote`: the empty string becomes `''`, a string
of safe characters is returned as it is, any other string is put between single
quotes with every single quote inside replaced by `'"'"'`. -/
def Quote (s : String) : String :=
  if s.data = [] then "''"
  else if s.data.any (fun c => !isSafeChar c) then
    String.mk ('\'' :: strings.replaceChar '\'' "'\"'\"'".data s.data ++ ['\''])
  else s

end shellescape

namespace strconv

/-- The table `lowerhex` of the library. -/
def lowerhex (n : Nat) : Char :=
  "0123456789abcdef".data.getD n '0'

/-- Hexadecimal digits of `r` taken four bits at a time, `k` digits, highest first. -/
def hexDigits (r : Nat) : Nat → List Char
  | 0 => []
  | k + 1 => lowerhex ((r >>> (4 * k)) % 16) :: hexDigits r k

/-- The library function `appendEscapedRune` with quote `"` and `ASCIIonly` set: what
one character contributes to the quoted string. -/
def escapedRune (c : Char) : List Char :=
  let r := c.toNat
  if c = '"' ∨ c = '\\' then ['\\', c]
  else if r < 128 ∧ 32 ≤ r ∧ r < 127 then [c]
  else if r = 7 then ['\\', 'a']
  else if r = 8 then ['\\', 'b']
  else if r = 12 then ['\\', 'f']
  else if r = 10 then ['\\', 'n']
  else if r = 13 then ['\\', 'r']
  else if r = 9 then ['\\', 't']
  else if r = 11 then ['\\', 'v']
  else if r < 32 ∨ r = 127 then '\\' :: 'x' :: hexDigits r 2
  else if r < 65536 then '\\' :: 'u' :: hexDigits r 4
  else '\\' :: 'U' :: hexDigits r 8

/-- The library function `strconv.QuoteToASCII`: a double-quoted Go string literal for
`s`, with backslash escapes for the double quote, the backslash, control characters
and every character outside ASCII. -/
def QuoteToASCII (s : String) : String :=
  String.mk ('"' :: (s.data.flatMap escapedRune ++ ['"']))

end strconv

namespace path

/-- The elements of a path: the pieces between its slashes. -/
def elements : List Char → List (List Char)
  | [] => [[]]
  | c :: cs =>
    if c = '/' then [] :: elements cs
    else
      match elements cs with
      | [] => [[c]]
      | e :: es => (c :: e) :: es

/-- Backtracking of `Clean` over the last element written: from write index `w + 1`
the index goes down while it is above `dotdot` and the character at it is not a
slash. -/
def backtrack (out : List Char) (dotdot : Nat) : Nat → Nat
  | 0 => 0
  | w + 1 => if dotdot < w + 1 ∧ out.getD (w + 1) ' ' ≠ '/' then backtrack out dotdot w else w + 1

/-- One turn of the loop of `Clean` over a path element, on the output written so far
and the index `dotdot` below which `..` may not remove anything. -/
def cleanStep (rooted : Bool) (st : List Char × Nat) (elem : List Char) : List Char × Nat :=
  if elem = [] then st
  else if elem = ['.'] then st
  else if elem = ['.', '.'] then
    if st.2 < st.1.length then (st.1.take (backtrack st.1 st.2 (st.1.length - 1)), st.2)
    else if !rooted then
      let out := (if 0 < st.1.length then st.1 ++ ['/'] else st.1) ++ ['.', '.']
      (out, out.length)
    else st
  else
    ((if (rooted && st.1.length != 1) || (!rooted && st.1.length != 0) then st.1 ++ ['/']
      else st.1) ++ elem, st.2)

/-- The library function `path.Clean` on the characters of a path.  The loop of the
library reads the path one element at a time (an empty element at a slash, a `.`
element, a `..` element, or a real element copied up to the next slash); here the
path is cut into its elements first and the same cases are applied to each. -/
def cleanChars (p : List Char) : List Char :=
  match p with
  | [] => ['.']
  | c :: cs =>
    let rooted := decide (c = '/')
    let st := if rooted then (elements cs).foldl (cleanStep true) (['/'], 1)
              else (elements (c :: cs)).foldl (cleanStep false) ([], 0)
    if st.1.length = 0 then ['.'] else st.1

/-- The library function `path.Clean`. -/
def Clean (p : String) : String := String.mk (cleanChars p.data)

/-- The buffer built by `path.Join`: the non-empty elements with a slash between
them (an empty element is kept once the buffer is non-empty). -/
def joinBuf (buf : List Char) : List String → List Char
  | [] => buf
  | e :: es =>
    if 0 < buf.length ∨ e ≠ "" then
      joinBuf ((if 0 < buf.length then buf ++ ['/'] else buf) ++ e.data) es
    else joinBuf buf es

/-- The library function `path.Join`. -/
def Join (elem : List String) : String :=
  if (elem.map String.length).sum = 0 then ""
  else Clean (String.mk (joinBuf [] elem))

end path

namespace fmt

/-- An operand of a formatting call: a string or an error. -/
inductive Arg where
  | str (s : String)
  | err (e : Error)
deriving DecidableEq, Repr

/-- The text an operand is printed as by the verbs `%s` and `%w`. -/
def Arg.text : Arg → List Char
  | .str s => s.data
  | .err e => e.Message.data

/-- Formatting for the verbs used by the embedded code, one character of the format
at a time; `verb` tells that the character before was a percent sign opening a verb.
The verbs `%s` and `%w` print the next operand, `%%` prints a percent sign, a verb
with no operand left prints the library's `%!s(MISSING)` or `%!w(MISSING)`, a percent
sign ending the format prints `%!(NOVERB)`.  Other verbs are copied as they stand and
operands left over at the end are not printed: no call in the embedded code has
either. -/
def format : Bool → List Char → List Arg → List Char
  | false, [], _ => []
  | true, [], _ => "%!(NOVERB)".data
  | false, c :: cs, as => if c = '%' then format true cs as else c :: format false cs as
  | true, c :: cs, as =>
    if c = 's' ∨ c = 'w' then
      match as with
      | a :: rest => a.text ++ format false cs rest
      | [] => '%' :: '!' :: c :: "(MISSING)".data ++ format false cs []
    else if c = '%' then '%' :: format false cs as
    else '%' :: c :: format false cs as

/-- The error operand of the first `%w` verb of a format, if there is one; the
arguments as for `format`. -/
def wrapped : Bool → List Char → List Arg → Option Error
  | _, [], _ => none
  | false, c :: cs, as => if c = '%' then wrapped true cs as else wrapped false cs as
  | true, c :: cs, as =>
    if c = 'w' then
      match as with
      | Arg.err e :: _ => some e
      | _ :: rest => wrapped false cs rest
      | [] => wrapped false cs []
    else if c = 's' then wrapped false cs as.tail
    else wrapped false cs as

/-- The library function `fmt.Sprintf`, for the verbs above. -/
def Sprintf (f : String) (args : List Arg) : String :=
  String.mk (format false f.data args)

/-- The library function `fmt.Errorf`: the message is the formatted text, and the
error wraps the operand of `%w`. -/
def Errorf (f : String) (args : List Arg) : Error :=
  match wrapped false f.data args with
  | some e => Error.Wrap (Sprintf f args) e
  | none => Error.New (Sprintf f args)

end fmt

namespace sync

/-- A cell made by the library function `sync.OnceValue(f)`: the function, the value
once it has been computed, and the number of times `f` has run. -/
structure OnceValue (α : Type) where
  f : Unit → α
  value : Option α
  runs : Nat

/-- The cell returned by `sync.OnceValue(f)`, before any call. -/
def OnceValue.new {α : Type} (f : Unit → α) : OnceValue α :=
  { f := f, value := none, runs := 0 }

/-- One call of the function returned by `sync.OnceValue`: the first call runs `f`
and keeps its value, every later call returns the value kept. -/
def OnceValue.call {α : Type} (o : OnceValue α) : α × OnceValue α :=
  match o.value with
  | some v => (v, o)
  | none => (o.f (), { o with value := some (o.f ()), runs := o.runs + 1 })

/-- A run of `n` calls one after the other: the values returned, in order, and the
cell at the end. -/
def OnceValue.calls {α : Type} : Nat → OnceValue α → List α × OnceValue α
  | 0, o => ([], o)
  | n + 1, o => ((o.call.1 :: (calls n o.call.2).1), (calls n o.call.2).2)

end sync

/-! ## `plumbing.Provider` -/

namespace plumbing

/-- A probe: given the connection (and the log of calls made on it so far) it returns
an implementation and whether it matched, with the log after its own calls. -/
abbrev Factory (T : Type) : Type :=
  ContextRunner → List Call → (Option T × Bool) × List Call

/-- Modelled from the spec: the type `plumbing.Provider` is declared outside the
embedded files.  It is the registry of section 4.1: the ordered list of the probes
registered so far and the "not found" error of its kind. -/
structure Provider (T : Type) where
  factories : List (Factory T)
  errNotFound : Error

/-- Modelled from the spec: `plumbing.NewProvider(err)` is declared outside the
embedded files.  It builds a registry with no probe and the given "not found"
error. -/
def NewProvider {T : Type} (err : Error) : Provider T :=
  { factories := [], errNotFound := err }

/-- Modelled from the spec: `Provider.Register` is declared outside the embedded
files.  It "appends a probe to the ordered list for this kind". -/
def Provider.Register {T : Type} (repo : Provider T) (factory : Factory T) : Provider T :=
  { repo with factories := repo.factories ++ [factory] }

end plumbing

/-! ## `initsystem/launchd.go` -/

namespace initsystem

/-- The type `Launchd`, a struct with no field. -/
structure Launchd where
deriving DecidableEq, Repr

/-- The interface `ServiceManager`, as the values that implement it: `Launchd`, and
the implementations declared outside the embedded files, told apart by a name. -/
inductive ServiceManager where
  | Launchd (i : Launchd)
  | Other (name : String)
deriving DecidableEq, Repr

/-- `Launchd.StartService`. -/
def Launchd.StartService (_i : Launchd) (h : ContextRunner) (s : String) (log : List Call) :
    Option Error × List Call :=
  match h.doExec ⟨"launchctl kickstart %s", [shellescape.Quote s]⟩ log with
  | (some err, log1) =>
    (some (fmt.Errorf "failed to start service %s: %w" [.str s, .err err]), log1)
  | (none, log1) => (none, log1)

/-- `Launchd.StopService`. -/
def Launchd.StopService (_i : Launchd) (h : ContextRunner) (s : String) (log : List Call) :
    Option Error × List Call :=
  match h.doExec ⟨"launchctl kill %s", [shellescape.Quote s]⟩ log with
  | (some err, log1) =>
    (some (fmt.Errorf "failed to stop service %s: %w" [.str s, .err err]), log1)
  | (none, log1) => (none, log1)

/-- `Launchd.ServiceIsRunning`. -/
def Launchd.ServiceIsRunning (_i : Launchd) (h : ContextRunner) (s : String)
    (log : List Call) : Bool × List Call :=
  match h.doExec ⟨"launchctl list | grep -q %s", [shellescape.Quote s]⟩ log with
  | (err, log1) => (err.isNone, log1)

/-- `Launchd.ServiceScriptPath`.  The connection is not used. -/
def Launchd.ServiceScriptPath (_i : Launchd) (_h : ContextRunner) (s : String)
    (log : List Call) : (String × Option Error) × List Call :=
  let plistPath := path.Join ["/Library/LaunchDaemons", s ++ ".plist"]
  ((plistPath, none), log)

/-- `Launchd.EnableService`. -/
def Launchd.EnableService (_i : Launchd) (h : ContextRunner) (s : String) (log : List Call) :
    Option Error × List Call :=
  match h.doExec ⟨"launchctl enable %s", [shellescape.Quote s]⟩ log with
  | (some err, log1) => (some (fmt.Errorf "failed to enable service: %w" [.err err]), log1)
  | (none, log1) => (none, log1)

/-- `Launchd.DisableService`. -/
def Launchd.DisableService (_i : Launchd) (h : ContextRunner) (s : String) (log : List Call) :
    Option Error × List Call :=
  match h.doExec ⟨"launchctl disable %s", [shellescape.Quote s]⟩ log with
  | (some err, log1) => (some (fmt.Errorf "failed to disable service: %w" [.err err]), log1)
  | (none, log1) => (none, log1)

/-- The slice expression `rows[len(rows)-lines:]`: `none` is the run-time panic of an
index out of range.  For `lines` from zero up the subtraction cannot overflow; for a
negative `lines` the index is out of range with or without overflow. -/
def sliceFrom (rows : List String) (lines : Int) : Option (List String) :=
  let low : Int := (rows.length : Int) - lines
  if low < 0 ∨ (rows.length : Int) < low then none else some (rows.drop low.toNat)

/-- `Launchd.ServiceLogs`.  The result is `none` when the function panics, else the
slice and the error returned; a `nil` slice is the empty list. -/
def Launchd.ServiceLogs (_i : Launchd) (h : ContextRunner) (s : String) (lines : Int)
    (log : List Call) : Option (List String × Option Error) × List Call :=
  match h.doExecOutput ⟨"log show --predicate 'subsystem contains %s' --debug --info --last 10m --style syslog", [strconv.QuoteToASCII s]⟩ log with
  | ((_, some err), log1) =>
    (some ([], some (fmt.Errorf "failed to get logs for service %s: %w" [.str s, .err err])),
      log1)
  | ((out, none), log1) =>
    let rows := strings.Split out "\n"
    if (rows.length : Int) > lines then
      ((sliceFrom rows lines).map (fun r => (r, none)), log1)
    else (some (rows, none), log1)

/-- The probe that `RegisterLaunchd` registers. -/
def launchdFactory : plumbing.Factory ServiceManager := fun c log =>
  if c.IsWindows then ((none, false), log)
  else
    match c.doExec ⟨"test -f /System/Library/CoreServices/SystemVersion.plist", []⟩ log with
    | (some _, log1) => ((none, false), log1)
    | (none, log1) => ((some (ServiceManager.Launchd {}), true), log1)

/-- `RegisterLaunchd`. -/
def RegisterLaunchd (repo : plumbing.Provider ServiceManager) :
    plumbing.Provider ServiceManager :=
  repo.Register launchdFactory

/-! ## `initsystem/defaultprovider.go` -/

/-- `ErrNoInitSystem`. -/
def ErrNoInitSystem : Error := Error.New "no supported init system found"

/-- `NewProvider`. -/
def NewProvider : plumbing.Provider ServiceManager :=
  plumbing.NewProvider ErrNoInitSystem

/-- The probes of the six init systems whose files are outside the embedded ones. -/
structure OtherFactories where
  systemd : plumbing.Factory ServiceManager
  openrc : plumbing.Factory ServiceManager
  upstart : plumbing.Factory ServiceManager
  sysvinit : plumbing.Factory ServiceManager
  winscm : plumbing.Factory ServiceManager
  runit : plumbing.Factory ServiceManager

/-- Modelled from the spec: `RegisterSystemd` is declared outside the embedded files.
As section 4.3 has it for every known facility, it registers the probe of its
facility on the registry. -/
def RegisterSystemd (fs : OtherFactories) (repo : plumbing.Provider ServiceManager) :
    plumbing.Provider ServiceManager :=
  repo.Register fs.systemd

/-- Modelled from the spec: `RegisterOpenRC` is declared outside the embedded files;
it registers the probe of its facility on the registry. -/
def RegisterOpenRC (fs : OtherFactories) (repo : plumbing.Provider ServiceManager) :
    plumbing.Provider ServiceManager :=
  repo.Register fs.openrc

/-- Modelled from the spec: `RegisterUpstart` is declared outside the embedded files;
it registers the probe of its facility on the registry. -/
def RegisterUpstart (fs : OtherFactories) (repo : plumbing.Provider ServiceManager) :
    plumbing.Provider ServiceManager :=
  repo.Register fs.upstart

/-- Modelled from the spec: `RegisterSysVinit` is declared outside the embedded files;
it registers the probe of its facility on the registry. -/
def RegisterSysVinit (fs : OtherFactories) (repo : plumbing.Provider ServiceManager) :
    plumbing.Provider ServiceManager :=
  repo.Register fs.sysvinit

/-- Modelled from the spec: `RegisterWinSCM` is declared outside the embedded files;
it registers the probe of its facility on the registry. -/
def RegisterWinSCM (fs : OtherFactories) (repo : plumbing.Provider ServiceManager) :
    plumbing.Provider ServiceManager :=
  repo.Register fs.winscm

/-- Modelled from the spec: `RegisterRunit` is declared outside the embedded files;
it registers the probe of its facility on the registry. -/
def RegisterRunit (fs : OtherFactories) (repo : plumbing.Provider ServiceManager) :
    plumbing.Provider ServiceManager :=
  repo.Register fs.runit

/-- The function given to `sync.OnceValue` in the declaration of `DefaultProvider`. -/
def buildDefaultProvider (fs : OtherFactories) (_ : Unit) : plumbing.Provider ServiceManager :=
  let provider := NewProvider
  let provider := RegisterSystemd fs provider
  let provider := RegisterOpenRC fs provider
  let provider := RegisterUpstart fs provider
  let provider := RegisterSysVinit fs provider
  let provider := RegisterWinSCM fs provider
  let provider := RegisterRunit fs provider
  let provider := RegisterLaunchd provider
  provider

/-- `DefaultProvider`: the cell made by `sync.OnceValue` at package initialisation. -/
def DefaultProvider (fs : OtherFactories) : sync.OnceValue (plumbing.Provider ServiceManager) :=
  sync.OnceValue.new (buildDefaultProvider fs)

end initsystem

/-! ## `packagemanager/homebrew.go` -/

namespace packagemanager

/-- `NewHomebrew`.  The constructor `newUniversalPackageManager` and the interface
`PackageManager` are declared outside the embedded files and are parameters. -/
def NewHomebrew {PackageManager : Type}
    (newUniversalPackageManager :
      ContextRunner → String → String → String → String → String → PackageManager)
    (c : ContextRunner) : PackageManager :=
  newUniversalPackageManager c "homebrew" "brew" "install" "uninstall" "update"

/-- The probe that `RegisterHomebrew` registers. -/
def homebrewFactory {PackageManager : Type}
    (newUniversalPackageManager :
      ContextRunner → String → String → String → String → String → PackageManager) :
    plumbing.Factory PackageManager := fun c log =>
  if c.IsWindows then ((none, false), log)
  else
    match c.doExec ⟨"command -v brew", []⟩ log with
    | (some _, log1) => ((none, false), log1)
    | (none, log1) => ((some (NewHomebrew newUniversalPackageManager c), true), log1)

/-- `RegisterHomebrew`. -/
def RegisterHomebrew {PackageManager : Type}
    (newUniversalPackageManager :
      ContextRunner → String → String → String → String → String → PackageManager)
    (repository : plumbing.Provider PackageManager) : plumbing.Provider PackageManager :=
  repository.Register (homebrewFactory newUniversalPackageManager)

end packagemanager

end Rig

namespace Rig

/-! ## Connections used as concrete inputs -/

/-- A connection of a non-Windows target on which every command succeeds, with empty
output. -/
def okRunner : ContextRunner :=
  { IsWindows := false
    ExecContext := fun _ _ => none
    ExecOutputContext := fun _ _ => ("", none) }

/-- A non-Windows connection on which every command fails with the given error. -/
def failRunner (e : Error) : ContextRunner :=
  { IsWindows := false
    ExecContext := fun _ _ => some e
    ExecOutputContext := fun _ _ => ("", some e) }

/-- A connection of a Windows target; its commands would succeed. -/
def windowsRunner : ContextRunner :=
  { IsWindows := true
    ExecContext := fun _ _ => none
    ExecOutputContext := fun _ _ => ("", none) }

/-- A non-Windows connection whose log command prints the given text. -/
def logRunner (out : String) : ContextRunner :=
  { IsWindows := false
    ExecContext := fun _ _ => none
    ExecOutputContext := fun _ _ => (out, none) }

/-- A stand-in for the package manager built by `newUniversalPackageManager`: the
five strings it is given. -/
structure StubPackageManager where
  name : String
  command : String
  install : String
  uninstall : String
  update : String
deriving DecidableEq, Repr

/-- A stand-in for `newUniversalPackageManager` that records its string arguments. -/
def stubNew (_c : ContextRunner) (name command install uninstall update : String) :
    StubPackageManager :=
  { name := name, command := command, install := install, uninstall := uninstall,
    update := update }

/-- The command of the launchd probe. -/
def launchdCheck : Command :=
  ⟨"test -f /System/Library/CoreServices/SystemVersion.plist", []⟩

/-- The command of the homebrew probe. -/
def brewCheck : Command := ⟨"command -v brew", []⟩

namespace path

/-- The output of `Clean` on a rooted path: the fold of the loop over the elements
after the leading slash. -/
def rootedFold (rest : List Char) : List Char × Nat :=
  (elements rest).foldl (cleanStep true) (['/'], 1)

/-- The state of the loop of `Clean` while it has not gone above the directory of the
launch daemons: the output is that directory, followed by nothing or by a slash and
more, and `dotdot` is one. -/
def belowLaunchDaemons (st : List Char × Nat) : Prop :=
  st.2 = 1 ∧ ∃ r, st.1 = "/Library/LaunchDaemons".data ++ r ∧ (r = [] ∨ ∃ r1, r = '/' :: r1)

end path

open initsystem packagemanager

/-! ## C1 -/

/-- C1: for every service name and connection, `StartService` issues exactly one
command, the template `launchctl kickstart %s` with the single argument
`shellescape.Quote(s)`, and returns nil when that command succeeds. -/
theorem startService_issues_one_kickstart (i : Launchd) (h : ContextRunner) (s : String)
    (log : List Call) :
    (i.StartService h s log).2
        = log ++ [Call.ExecContext ⟨"launchctl kickstart %s", [shellescape.Quote s]⟩] ∧
      (h.ExecContext log ⟨"launchctl kickstart %s", [shellescape.Quote s]⟩ = none →
        (i.StartService h s log).1 = none) := by
  unfold Launchd.StartService ContextRunner.doExec
  constructor
  · cases h.ExecContext log ⟨"launchctl kickstart %s", [shellescape.Quote s]⟩ <;> rfl
  · intro hok
    rw [hok]

/-- C1 at a concrete input: on a connection where the command succeeds, starting
`nginx` issues the one command `launchctl kickstart %s` with argument `nginx` and
returns nil. -/
theorem startService_issues_one_kickstart_witness :
    (Launchd.StartService {} okRunner "nginx" []).2
        = [Call.ExecContext ⟨"launchctl kickstart %s", ["nginx"]⟩] ∧
      (Launchd.StartService {} okRunner "nginx" []).1 = none :=
  ⟨(startService_issues_one_kickstart {} okRunner "nginx" []).1,
    (startService_issues_one_kickstart {} okRunner "nginx" []).2 rfl⟩

/-! ## C2 -/

/-- C2: on a Windows connection the launchd probe and the homebrew probe decline
without executing a command; on any other connection each executes exactly one
presence check (`test -f /System/Library/CoreServices/SystemVersion.plist`, resp.
`command -v brew`) and reports `matched = true`, with `Launchd{}` resp.
`NewHomebrew(c)`, if and only if that check succeeds, and declines otherwise. -/
theorem probes_windows_gate_then_one_check {PackageManager : Type}
    (newUniversalPackageManager :
      ContextRunner → String → String → String → String → String → PackageManager)
    (c : ContextRunner) (log : List Call) :
    (c.IsWindows = true →
        launchdFactory c log = ((none, false), log) ∧
        homebrewFactory newUniversalPackageManager c log = ((none, false), log)) ∧
      (c.IsWindows = false →
        (launchdFactory c log).2 = log ++ [Call.ExecContext launchdCheck] ∧
        ((launchdFactory c log).1.2 = true ↔ c.ExecContext log launchdCheck = none) ∧
        (launchdFactory c log).1
          = (if c.ExecContext log launchdCheck = none
              then (some (ServiceManager.Launchd {}), true) else (none, false)) ∧
        (homebrewFactory newUniversalPackageManager c log).2
          = log ++ [Call.ExecContext brewCheck] ∧
        ((homebrewFactory newUniversalPackageManager c log).1.2 = true
          ↔ c.ExecContext log brewCheck = none) ∧
        (homebrewFactory newUniversalPackageManager c log).1
          = (if c.ExecContext log brewCheck = none
              then (some (NewHomebrew newUniversalPackageManager c), true)
              else (none, false))) := by
  constructor
  · intro hw
    simp [launchdFactory, homebrewFactory, hw]
  · intro hw
    unfold launchdFactory homebrewFactory ContextRunner.doExec launchdCheck brewCheck
    simp only [hw]
    cases c.ExecContext log ⟨"test -f /System/Library/CoreServices/SystemVersion.plist", []⟩ <;>
      cases c.ExecContext log ⟨"command -v brew", []⟩ <;> simp

/-- C2 at concrete inputs: a Windows connection is declined with no command issued,
and a non-Windows connection whose checks succeed is matched after one command. -/
theorem probes_windows_gate_then_one_check_witness :
    (launchdFactory windowsRunner [] = ((none, false), []) ∧
        homebrewFactory stubNew windowsRunner [] = ((none, false), [])) ∧
      (launchdFactory okRunner []
          = ((some (ServiceManager.Launchd {}), true), [Call.ExecContext launchdCheck])) ∧
      (homebrewFactory stubNew okRunner []).2 = [Call.ExecContext brewCheck] ∧
      (homebrewFactory stubNew okRunner []).1.2 = true :=
  ⟨(probes_windows_gate_then_one_check stubNew windowsRunner []).1 rfl,
    Prod.ext ((probes_windows_gate_then_one_check stubNew okRunner []).2 rfl).2.2.1
      ((probes_windows_gate_then_one_check stubNew okRunner []).2 rfl).1,
    ((probes_windows_gate_then_one_check stubNew okRunner []).2 rfl).2.2.2.1,
    ((probes_windows_gate_then_one_check stubNew okRunner []).2 rfl).2.2.2.2.1.2 rfl⟩

/-! ## C3 -/

/-- C3, counterexample: a connection whose commands fail because the connection is
lost and a connection on which the checked file or command is merely absent get the
same outcome from the launchd probe and from the homebrew probe, the plain decline
`(nil, false)`. -/
theorem probe_fault_same_as_decline :
    launchdFactory (failRunner (Error.New "ssh: connection lost")) []
        = launchdFactory (failRunner (Error.New "exit status 1")) [] ∧
      (launchdFactory (failRunner (Error.New "ssh: connection lost")) []).1 = (none, false) ∧
      homebrewFactory stubNew (failRunner (Error.New "ssh: connection lost")) []
        = homebrewFactory stubNew (failRunner (Error.New "exit status 1")) [] ∧
      (homebrewFactory stubNew (failRunner (Error.New "ssh: connection lost")) []).1
        = (none, false) := by
  refine ⟨rfl, rfl, rfl, rfl⟩

/-- C3, amended: on a non-Windows connection, whenever the command of a probe fails,
with whatever error (an execution-layer fault included), the launchd probe and the
homebrew probe report the plain decline `(nil, false)` after that one command; the
error is not part of the outcome. -/
theorem probes_decline_on_any_failure {PackageManager : Type}
    (newUniversalPackageManager :
      ContextRunner → String → String → String → String → String → PackageManager)
    (c : ContextRunner) (log : List Call) (hw : c.IsWindows = false) :
    (∀ e : Error, c.ExecContext log launchdCheck = some e →
        launchdFactory c log = ((none, false), log ++ [Call.ExecContext launchdCheck])) ∧
      (∀ e : Error, c.ExecContext log brewCheck = some e →
        homebrewFactory newUniversalPackageManager c log
          = ((none, false), log ++ [Call.ExecContext brewCheck])) := by
  constructor
  · intro e he
    unfold launchdCheck at he
    simp [launchdFactory, ContextRunner.doExec, hw, he, launchdCheck]
  · intro e he
    unfold brewCheck at he
    simp [homebrewFactory, ContextRunner.doExec, hw, he, brewCheck]

/-- C3, amended, at a concrete input: a lost connection is declined by both probes. -/
theorem probes_decline_on_any_failure_witness :
    launchdFactory (failRunner (Error.New "ssh: connection lost")) []
        = ((none, false), [Call.ExecContext launchdCheck]) ∧
      homebrewFactory stubNew (failRunner (Error.New "ssh: connection lost")) []
        = ((none, false), [Call.ExecContext brewCheck]) :=
  ⟨(probes_decline_on_any_failure stubNew (failRunner (Error.New "ssh: connection lost")) []
      rfl).1 (Error.New "ssh: connection lost") rfl,
    (probes_decline_on_any_failure stubNew (failRunner (Error.New "ssh: connection lost")) []
      rfl).2 (Error.New "ssh: connection lost") rfl⟩

/-! ## C4 -/

/-- The shape of a failure of the five error-returning operations: when the command
fails with `e`, each operation has issued that one command only and returns an error
that wraps `e`; the message is the prefix of the operation, followed for
`StartService`, `StopService` and `ServiceLogs` by the service name, then `: ` and
the message of `e`.  For `EnableService` and `DisableService` the service name is
not part of the message. -/
theorem launchd_failure_shapes (i : Launchd) (h : ContextRunner) (s : String) (e : Error)
    (log : List Call) :
    (h.ExecContext log ⟨"launchctl kickstart %s", [shellescape.Quote s]⟩ = some e →
        i.StartService h s log
          = (some (Error.Wrap ("failed to start service " ++ s ++ ": " ++ e.Message) e),
              log ++ [Call.ExecContext ⟨"launchctl kickstart %s", [shellescape.Quote s]⟩])) ∧
      (h.ExecContext log ⟨"launchctl kill %s", [shellescape.Quote s]⟩ = some e →
        i.StopService h s log
          = (some (Error.Wrap ("failed to stop service " ++ s ++ ": " ++ e.Message) e),
              log ++ [Call.ExecContext ⟨"launchctl kill %s", [shellescape.Quote s]⟩])) ∧
      (h.ExecContext log ⟨"launchctl enable %s", [shellescape.Quote s]⟩ = some e →
        i.EnableService h s log
          = (some (Error.Wrap ("failed to enable service: " ++ e.Message) e),
              log ++ [Call.ExecContext ⟨"launchctl enable %s", [shellescape.Quote s]⟩])) ∧
      (h.ExecContext log ⟨"launchctl disable %s", [shellescape.Quote s]⟩ = some e →
        i.DisableService h s log
          = (some (Error.Wrap ("failed to disable service: " ++ e.Message) e),
              log ++ [Call.ExecContext ⟨"launchctl disable %s", [shellescape.Quote s]⟩])) ∧
      (∀ (lines : Int) (out : String),
        h.ExecOutputContext log
            ⟨"log show --predicate 'subsystem contains %s' --debug --info --last 10m --style syslog",
              [strconv.QuoteToASCII s]⟩ = (out, some e) →
        i.ServiceLogs h s lines log
          = (some ([], some (Error.Wrap
                ("failed to get logs for service " ++ s ++ ": " ++ e.Message) e)),
              log ++ [Call.ExecOutputContext
                ⟨"log show --predicate 'subsystem contains %s' --debug --info --last 10m --style syslog",
                  [strconv.QuoteToASCII s]⟩])) := by
  refine ⟨?_, ?_, ?_, ?_, ?_⟩
  rotate_left 4
  · intro lines out he
    simp [Launchd.ServiceLogs, ContextRunner.doExecOutput, he, fmt.Errorf, fmt.Sprintf,
      fmt.format, fmt.wrapped, fmt.Arg.text]
    apply String.ext
    simp
  all_goals intro he
  · simp [Launchd.StartService, ContextRunner.doExec, he, fmt.Errorf, fmt.Sprintf, fmt.format,
      fmt.wrapped, fmt.Arg.text]
    apply String.ext
    simp
  · simp [Launchd.StopService, ContextRunner.doExec, he, fmt.Errorf, fmt.Sprintf, fmt.format,
      fmt.wrapped, fmt.Arg.text]
    apply String.ext
    simp
  · simp [Launchd.EnableService, ContextRunner.doExec, he, fmt.Errorf, fmt.Sprintf, fmt.format,
      fmt.wrapped, fmt.Arg.text]
    apply String.ext
    simp
  · simp [Launchd.DisableService, ContextRunner.doExec, he, fmt.Errorf, fmt.Sprintf,
      fmt.format, fmt.wrapped, fmt.Arg.text]
    apply String.ext
    simp

/-- C4, the code at the failing input: when the command fails with `exit status 1`,
`EnableService` and `DisableService` for the service `nginx` issue one command and
return an error that wraps the command error and names the operation, but whose
message does not contain the service name; `StartService` on the same input does
name it. -/
theorem enable_disable_error_omits_service_name :
    Launchd.EnableService {} (failRunner (Error.New "exit status 1")) "nginx" []
        = (some (Error.Wrap "failed to enable service: exit status 1"
              (Error.New "exit status 1")),
            [Call.ExecContext ⟨"launchctl enable %s", ["nginx"]⟩]) ∧
      ¬ "nginx".data <:+: "failed to enable service: exit status 1".data ∧
      Launchd.DisableService {} (failRunner (Error.New "exit status 1")) "nginx" []
        = (some (Error.Wrap "failed to disable service: exit status 1"
              (Error.New "exit status 1")),
            [Call.ExecContext ⟨"launchctl disable %s", ["nginx"]⟩]) ∧
      ¬ "nginx".data <:+: "failed to disable service: exit status 1".data ∧
      Launchd.StartService {} (failRunner (Error.New "exit status 1")) "nginx" []
        = (some (Error.Wrap "failed to start service nginx: exit status 1"
              (Error.New "exit status 1")),
            [Call.ExecContext ⟨"launchctl kickstart %s", ["nginx"]⟩]) := by
  refine ⟨by decide, by decide, by decide, by decide, by decide⟩

/-! ## C5 -/

/-- The five operations that run `launchctl` pass `shellescape.Quote(s)` as the only
argument of their command, whatever the connection answers. -/
theorem launchctl_operations_quote (i : Launchd) (h : ContextRunner) (s : String)
    (log : List Call) :
    (i.StartService h s log).2
        = log ++ [Call.ExecContext ⟨"launchctl kickstart %s", [shellescape.Quote s]⟩] ∧
      (i.StopService h s log).2
        = log ++ [Call.ExecContext ⟨"launchctl kill %s", [shellescape.Quote s]⟩] ∧
      (i.ServiceIsRunning h s log).2
        = log ++ [Call.ExecContext ⟨"launchctl list | grep -q %s", [shellescape.Quote s]⟩] ∧
      (i.EnableService h s log).2
        = log ++ [Call.ExecContext ⟨"launchctl enable %s", [shellescape.Quote s]⟩] ∧
      (i.DisableService h s log).2
        = log ++ [Call.ExecContext ⟨"launchctl disable %s", [shellescape.Quote s]⟩] := by
  refine ⟨?_, ?_, ?_, ?_, ?_⟩
  · unfold Launchd.StartService ContextRunner.doExec
    cases h.ExecContext log ⟨"launchctl kickstart %s", [shellescape.Quote s]⟩ <;> rfl
  · unfold Launchd.StopService ContextRunner.doExec
    cases h.ExecContext log ⟨"launchctl kill %s", [shellescape.Quote s]⟩ <;> rfl
  · rfl
  · unfold Launchd.EnableService ContextRunner.doExec
    cases h.ExecContext log ⟨"launchctl enable %s", [shellescape.Quote s]⟩ <;> rfl
  · unfold Launchd.DisableService ContextRunner.doExec
    cases h.ExecContext log ⟨"launchctl disable %s", [shellescape.Quote s]⟩ <;> rfl

/-- The argument `ServiceLogs` passes to its command is `strconv.QuoteToASCII(s)`,
whatever the connection answers and whatever `lines` is. -/
theorem serviceLogs_command (i : Launchd) (h : ContextRunner) (s : String) (lines : Int)
    (log : List Call) :
    (i.ServiceLogs h s lines log).2
      = log ++ [Call.ExecOutputContext
          ⟨"log show --predicate 'subsystem contains %s' --debug --info --last 10m --style syslog",
            [strconv.QuoteToASCII s]⟩] := by
  unfold Launchd.ServiceLogs ContextRunner.doExecOutput
  rcases h.ExecOutputContext log
    ⟨"log show --predicate 'subsystem contains %s' --debug --info --last 10m --style syslog",
      [strconv.QuoteToASCII s]⟩ with ⟨out, _ | err⟩
  · simp only
    split <;> rfl
  · rfl

/-- C5, the code at the failing input: for the service name `a'b`, `ServiceLogs`
substitutes `"a'b"` (the name between double quotes, its single quote untouched)
into a template that puts it between single quotes, where `shellescape.Quote` gives
`'a'"'"'b'`; in the command formatted from the template the single quote of the name
closes the quoted predicate. -/
theorem serviceLogs_argument_not_shell_escaped :
    (Launchd.ServiceLogs {} okRunner "a'b" 10 []).2
        = [Call.ExecOutputContext
            ⟨"log show --predicate 'subsystem contains %s' --debug --info --last 10m --style syslog",
              ["\"a'b\""]⟩] ∧
      shellescape.Quote "a'b" = "'a'\"'\"'b'" ∧
      strconv.QuoteToASCII "a'b" ≠ shellescape.Quote "a'b" ∧
      fmt.Sprintf
          "log show --predicate 'subsystem contains %s' --debug --info --last 10m --style syslog"
          [.str (strconv.QuoteToASCII "a'b")]
        = "log show --predicate 'subsystem contains \"a'b\"' --debug --info --last 10m --style syslog" := by
  refine ⟨by decide, by decide, by decide, by decide⟩

/-! ## C6 -/

namespace path

/-- A list of characters without a slash is a single path element. -/
theorem elements_of_no_slash : ∀ (l : List Char), '/' ∉ l → elements l = [l]
  | [], _ => rfl
  | c :: cs, h => by
    have hc : c ≠ '/' := fun hEq => h (hEq ▸ List.mem_cons_self _ _)
    have hcs : '/' ∉ cs := fun hm => h (List.mem_cons_of_mem _ hm)
    simp [elements, hc, elements_of_no_slash cs hcs]

/-- Appending slash-free text to a path appends it to the last element. -/
theorem elements_append_no_slash (tl : List Char) (htl : '/' ∉ tl) :
    ∀ x : List Char, ∃ init last,
      elements x = init ++ [last] ∧ elements (x ++ tl) = init ++ [last ++ tl]
  | [] => ⟨[], [], rfl, by simpa using elements_of_no_slash tl htl⟩
  | c :: cs => by
    obtain ⟨init, last, h1, h2⟩ := elements_append_no_slash tl htl cs
    by_cases hc : c = '/'
    · exact ⟨[] :: init, last, by simp [elements, hc, h1], by simp [elements, hc, h2]⟩
    · cases init with
      | nil =>
        exact ⟨[], c :: last, by simp [elements, hc, h1], by simp [elements, hc, h2]⟩
      | cons e es =>
        exact ⟨(c :: e) :: es, last, by simp [elements, hc, h1], by simp [elements, hc, h2]⟩

/-- The elements of two paths joined by a slash are the elements of the first
followed by those of the second. -/
theorem elements_append_slash (b : List Char) :
    ∀ a : List Char, elements (a ++ '/' :: b) = elements a ++ elements b
  | [] => by simp [elements]
  | c :: cs => by
    by_cases hc : c = '/'
    · simp [elements, hc, elements_append_slash b cs]
    · obtain ⟨init, last, h1, -⟩ := elements_append_no_slash [] (by simp) cs
      cases init with
      | nil => simp [elements, hc, elements_append_slash b cs, h1]
      | cons e es => simp [elements, hc, elements_append_slash b cs, h1]

/-- A name followed by `.plist` is a real element: it is not empty, not `.` and
not `..`. -/
theorem plist_real (last : List Char) :
    last ++ ".plist".data ≠ [] ∧ last ++ ".plist".data ≠ ['.'] ∧
      last ++ ".plist".data ≠ ['.', '.'] := by
  have hlen : 6 ≤ (last ++ ".plist".data).length := by simp
  refine ⟨?_, ?_, ?_⟩ <;> (intro h; rw [h] at hlen; simp at hlen)

/-- The turn of the loop of `Clean` for a real element: a slash is written unless the
output is at its start, then the element is copied. -/
theorem cleanStep_real (rooted : Bool) (st : List Char × Nat) (elem : List Char)
    (h0 : elem ≠ []) (h1 : elem ≠ ['.']) (h2 : elem ≠ ['.', '.']) :
    cleanStep rooted st elem
      = ((if (rooted && st.1.length != 1) || (!rooted && st.1.length != 0) then st.1 ++ ['/']
          else st.1) ++ elem, st.2) := by
  unfold cleanStep
  rw [if_neg h0, if_neg h1, if_neg h2]

/-- What `Join` computes for the directory of the launch daemons and a file name. -/
theorem join_launchDaemons (name : String) :
    Join ["/Library/LaunchDaemons", name]
      = String.mk (cleanChars ("/Library/LaunchDaemons".data ++ '/' :: name.data)) := by
  have hsum : ¬ (List.map String.length ["/Library/LaunchDaemons", name]).sum = 0 := by
    have : String.length "/Library/LaunchDaemons" = 22 := by decide
    simp [this]
  have hne : ("/Library/LaunchDaemons" : String) ≠ "" := by decide
  have hlen : 0 < ("/Library/LaunchDaemons" : String).data.length := by decide
  unfold Join
  rw [if_neg hsum]
  simp only [Clean, joinBuf, List.length_nil, lt_irrefl, false_or, hne, ne_eq,
    not_false_eq_true, if_true, if_false, List.nil_append, hlen, true_or, List.append_assoc,
    List.singleton_append]

/-- The fold over the two elements `Library` and `LaunchDaemons`. -/
theorem rootedFold_launchDaemons (rest : List Char) :
    rootedFold ("Library/LaunchDaemons".data ++ '/' :: rest)
      = (elements rest).foldl (cleanStep true) ("/Library/LaunchDaemons".data, 1) := by
  unfold rootedFold
  rw [elements_append_slash, List.foldl_append]
  have : (elements "Library/LaunchDaemons".data).foldl (cleanStep true) (['/'], 1)
      = ("/Library/LaunchDaemons".data, 1) := by decide
  rw [this]

/-- `Clean` on a path below the directory of the launch daemons. -/
theorem cleanChars_launchDaemons (rest : List Char) :
    cleanChars ("/Library/LaunchDaemons".data ++ '/' :: rest)
      = if ((elements rest).foldl (cleanStep true) ("/Library/LaunchDaemons".data, 1)).1.length
            = 0 then ['.']
        else ((elements rest).foldl (cleanStep true) ("/Library/LaunchDaemons".data, 1)).1 := by
  have h : "/Library/LaunchDaemons".data = '/' :: "Library/LaunchDaemons".data := by decide
  rw [← rootedFold_launchDaemons, h]
  simp [cleanChars, rootedFold]

/-- An element other than `..` keeps the output below the directory. -/
theorem cleanStep_below (st : List Char × Nat) (elem : List Char)
    (hst : belowLaunchDaemons st) (helem : elem ≠ ['.', '.']) :
    belowLaunchDaemons (cleanStep true st elem) := by
  obtain ⟨h2, r, hr, hcase⟩ := hst
  unfold cleanStep
  by_cases h0 : elem = []
  · rw [if_pos h0]; exact ⟨h2, r, hr, hcase⟩
  · rw [if_neg h0]
    by_cases h1 : elem = ['.']
    · rw [if_pos h1]; exact ⟨h2, r, hr, hcase⟩
    · rw [if_neg h1, if_neg helem]
      have hlen : st.1.length ≠ 1 := by
        rw [hr]
        have : ("/Library/LaunchDaemons" : String).data.length = 22 := by decide
        simp [this]
      refine ⟨h2, r ++ '/' :: elem, ?_, ?_⟩
      · simp [hlen, hr]
      · rcases hcase with rfl | ⟨r1, rfl⟩
        · exact Or.inr ⟨elem, rfl⟩
        · exact Or.inr ⟨r1 ++ '/' :: elem, rfl⟩

/-- A run of elements none of which is `..` keeps the output below the directory. -/
theorem foldl_cleanStep_below :
    ∀ (es : List (List Char)) (st : List Char × Nat), belowLaunchDaemons st →
      (∀ e ∈ es, e ≠ ['.', '.']) → belowLaunchDaemons (es.foldl (cleanStep true) st)
  | [], st, hst, _ => hst
  | e :: es, st, hst, hes => by
    rw [List.foldl_cons]
    exact foldl_cleanStep_below es _
      (cleanStep_below st e hst (hes e (List.mem_cons_self _ _)))
      (fun e1 he1 => hes e1 (List.mem_cons_of_mem _ he1))

/-- The result of `Join` for the launch-daemons directory and any name ending in
`.plist` ends in `.plist`. -/
theorem join_plist_suffix (s : String) :
    ".plist".data <:+ (Join ["/Library/LaunchDaemons", s ++ ".plist"]).data := by
  rw [join_launchDaemons, String.data_append, cleanChars_launchDaemons]
  obtain ⟨init, last, -, h2⟩ := elements_append_no_slash ".plist".data (by decide) s.data
  rw [h2, List.foldl_append, List.foldl_cons, List.foldl_nil]
  generalize init.foldl (cleanStep true) ("/Library/LaunchDaemons".data, 1) = st
  obtain ⟨h0, h1, h2⟩ := plist_real last
  have hstep : ∃ pre, (cleanStep true st (last ++ ".plist".data)).1
      = pre ++ (last ++ ".plist".data) := by
    rw [cleanStep_real true st _ h0 h1 h2]
    exact ⟨_, rfl⟩
  obtain ⟨pre, hpre⟩ := hstep
  rw [hpre]
  have hne : ¬ (pre ++ (last ++ ".plist".data)).length = 0 := by simp
  rw [if_neg hne]
  exact ⟨pre ++ last, by simp⟩

/-- When no element of `s + ".plist"` is `..`, the result of `Join` lies below the
directory of the launch daemons. -/
theorem join_plist_below (s : String)
    (hs : ['.', '.'] ∉ elements (s ++ ".plist").data) :
    "/Library/LaunchDaemons/".data <+: (Join ["/Library/LaunchDaemons", s ++ ".plist"]).data := by
  rw [join_launchDaemons, cleanChars_launchDaemons]
  rw [String.data_append] at hs ⊢
  obtain ⟨init, last, -, h2⟩ := elements_append_no_slash ".plist".data (by decide) s.data
  rw [h2] at hs ⊢
  rw [List.foldl_append, List.foldl_cons, List.foldl_nil]
  have hinit : belowLaunchDaemons
      (init.foldl (cleanStep true) ("/Library/LaunchDaemons".data, 1)) := by
    apply foldl_cleanStep_below
    · exact ⟨rfl, [], by simp, Or.inl rfl⟩
    · intro e he hEq
      exact hs (hEq ▸ List.mem_append_left _ he)
  obtain ⟨-, r, hr, hrcase⟩ := hinit
  generalize init.foldl (cleanStep true) ("/Library/LaunchDaemons".data, 1) = st at hr ⊢
  obtain ⟨h0, h1, h2⟩ := plist_real last
  have hlen : st.1.length ≠ 1 := by
    rw [hr]
    have : ("/Library/LaunchDaemons" : String).data.length = 22 := by decide
    simp [this]
  have hout : (if (true && st.1.length != 1) || (!true && st.1.length != 0) then st.1 ++ ['/']
      else st.1) = st.1 ++ ['/'] := by simp [hlen]
  have hB : "/Library/LaunchDaemons/".data = "/Library/LaunchDaemons".data ++ ['/'] := by decide
  rw [cleanStep_real true st _ h0 h1 h2, hout, hr, hB]
  have hne : ¬ ("/Library/LaunchDaemons".data ++ r ++ ['/'] ++ (last ++ ".plist".data)).length
      = 0 := by simp
  rw [if_neg hne]
  rcases hrcase with rfl | ⟨r1, rfl⟩
  · exact ⟨last ++ ".plist".data, by simp⟩
  · exact ⟨r1 ++ '/' :: (last ++ ".plist".data), by simp⟩

/-- For a name without a slash the result of `Join` is the directory, a slash, the
name and `.plist`. -/
theorem join_plist_no_slash (s : String) (hs : '/' ∉ s.data) :
    Join ["/Library/LaunchDaemons", s ++ ".plist"] = "/Library/LaunchDaemons/" ++ s ++ ".plist" := by
  rw [join_launchDaemons, cleanChars_launchDaemons, String.data_append]
  have hno : '/' ∉ s.data ++ ".plist".data := by
    intro hm
    rcases List.mem_append.mp hm with h | h
    · exact hs h
    · exact absurd h (by decide)
  rw [elements_of_no_slash _ hno, List.foldl_cons, List.foldl_nil]
  obtain ⟨h0, h1, h2⟩ := plist_real s.data
  have hB : ("/Library/LaunchDaemons" : String).data.length = 22 := by decide
  apply String.ext
  rw [cleanStep_real true _ _ h0 h1 h2]
  simp [hB]

end path

/-- C6, counterexample: for the service name `../x` the path returned is
`/Library/x.plist`, which does not have `/Library/LaunchDaemons/` as a prefix. -/
theorem serviceScriptPath_leaves_directory :
    Launchd.ServiceScriptPath {} okRunner "../x" [] = (("/Library/x.plist", none), []) ∧
      ¬ "/Library/LaunchDaemons/".data <+: "/Library/x.plist".data := by
  refine ⟨by decide, by decide⟩

/-- C6, amended: for every service name `s`, `ServiceScriptPath` executes no
command, returns a nil error and returns
`path.Join("/Library/LaunchDaemons", s + ".plist")`, which ends in `.plist`.  When no
element of `s + ".plist"` between slashes is `..`, the result has
`/Library/LaunchDaemons/` as a prefix; when `s` has no slash at all the result is
`/Library/LaunchDaemons/` followed by `s` and `.plist`. -/
theorem serviceScriptPath_plist_path (i : Launchd) (h : ContextRunner) (s : String)
    (log : List Call) :
    i.ServiceScriptPath h s log
        = ((path.Join ["/Library/LaunchDaemons", s ++ ".plist"], none), log) ∧
      ".plist".data <:+ (i.ServiceScriptPath h s log).1.1.data ∧
      (['.', '.'] ∉ path.elements (s ++ ".plist").data →
        "/Library/LaunchDaemons/".data <+: (i.ServiceScriptPath h s log).1.1.data) ∧
      ('/' ∉ s.data →
        (i.ServiceScriptPath h s log).1.1 = "/Library/LaunchDaemons/" ++ s ++ ".plist") :=
  ⟨rfl, path.join_plist_suffix s, fun hs => path.join_plist_below s hs,
    fun hs => path.join_plist_no_slash s hs⟩

/-- C6, amended, at a concrete input: the path for `nginx` is
`/Library/LaunchDaemons/nginx.plist`, with the directory as a prefix. -/
theorem serviceScriptPath_plist_path_witness :
    (Launchd.ServiceScriptPath {} okRunner "nginx" []).1.1
        = "/Library/LaunchDaemons/" ++ "nginx" ++ ".plist" ∧
      "/Library/LaunchDaemons/".data
        <+: (Launchd.ServiceScriptPath {} okRunner "nginx" []).1.1.data :=
  ⟨(serviceScriptPath_plist_path {} okRunner "nginx" []).2.2.2 (by decide),
    (serviceScriptPath_plist_path {} okRunner "nginx" []).2.2.1 (by decide)⟩

/-! ## C7 -/

/-- C7, the code at the failing input: for the service `nginx`, `DisableService`
issues the one command `launchctl disable %s` with argument `nginx`.  The plist file
of the service, `/Library/LaunchDaemons/nginx.plist`, occurs neither in the template
nor among the arguments, and the template is not a rename (`mv`). -/
theorem disableService_issues_launchctl_disable :
    (Launchd.DisableService {} okRunner "nginx" []).2
        = [Call.ExecContext ⟨"launchctl disable %s", ["nginx"]⟩] ∧
      (Launchd.ServiceScriptPath {} okRunner "nginx" []).1.1
        = "/Library/LaunchDaemons/nginx.plist" ∧
      ¬ "/Library/LaunchDaemons/nginx.plist".data <:+: "launchctl disable %s".data ∧
      ¬ "/Library/LaunchDaemons/nginx.plist".data <:+: "nginx".data ∧
      ¬ "mv".data <:+: "launchctl disable %s".data := by
  refine ⟨by decide, by decide, by decide, by decide, by decide⟩

/-! ## C8 -/

/-- A run of calls on a cell that already holds a value returns that value every
time and does not run the function again. -/
theorem OnceValue_calls_of_value {α : Type} (v : α) :
    ∀ (n : Nat) (o : sync.OnceValue α), o.value = some v →
      (o.calls n).1 = List.replicate n v ∧ (o.calls n).2 = o := by
  intro n
  induction n with
  | zero => intro o _; exact ⟨rfl, rfl⟩
  | succ n ih =>
    intro o ho
    have hc : o.call = (v, o) := by simp [sync.OnceValue.call, ho]
    simp only [sync.OnceValue.calls, hc, List.replicate_succ]
    exact ⟨by rw [(ih o ho).1], (ih o ho).2⟩

/-- C8: the default provider is built once, by the first call of `DefaultProvider`,
and every call returns that provider: after any number `n + 1` of calls the builder
has run exactly once and all `n + 1` results are the one provider.  That provider has
`ErrNoInitSystem`, with message `no supported init system found`, as its not-found
error, and exactly seven probes, registered in the order systemd, openrc, upstart,
sysvinit, winscm, runit, launchd, so the launchd probe is the last. -/
theorem defaultProvider_built_once_seven_probes (fs : OtherFactories) (n : Nat) :
    (DefaultProvider fs).runs = 0 ∧
      ((DefaultProvider fs).calls (n + 1)).1
        = List.replicate (n + 1) (buildDefaultProvider fs ()) ∧
      ((DefaultProvider fs).calls (n + 1)).2.runs = 1 ∧
      (buildDefaultProvider fs ()).errNotFound = ErrNoInitSystem ∧
      ErrNoInitSystem.Message = "no supported init system found" ∧
      (buildDefaultProvider fs ()).factories
        = [fs.systemd, fs.openrc, fs.upstart, fs.sysvinit, fs.winscm, fs.runit,
            launchdFactory] ∧
      (buildDefaultProvider fs ()).factories.length = 7 ∧
      (buildDefaultProvider fs ()).factories.getLast? = some launchdFactory := by
  refine ⟨rfl, ?_, ?_, rfl, rfl, rfl, rfl, rfl⟩
  · have h1 : (DefaultProvider fs).call.1 = buildDefaultProvider fs () := rfl
    have h2 : (DefaultProvider fs).call.2.value = some (buildDefaultProvider fs ()) := rfl
    simp only [sync.OnceValue.calls, h1, List.replicate_succ]
    rw [(OnceValue_calls_of_value _ n _ h2).1]
  · have h2 : (DefaultProvider fs).call.2.value = some (buildDefaultProvider fs ()) := rfl
    simp only [sync.OnceValue.calls]
    rw [(OnceValue_calls_of_value _ n _ h2).2]
    rfl

/-! ## C9 -/

/-- C9: for `lines` from zero up and a connection whose log command succeeds with
output `out`, `ServiceLogs` returns a nil error and, with `rows` the output split at
newlines, all of `rows` when `len(rows) <= lines` and otherwise the last `lines`
elements of `rows` in their order: a suffix of `rows` of length
`min(len(rows), lines)`. -/
theorem serviceLogs_returns_last_lines (i : Launchd) (h : ContextRunner) (s : String)
    (lines : Int) (log : List Call) (out : String) (hlines : 0 ≤ lines)
    (hok : h.ExecOutputContext log
      ⟨"log show --predicate 'subsystem contains %s' --debug --info --last 10m --style syslog",
        [strconv.QuoteToASCII s]⟩ = (out, none)) :
    ∃ result : List String,
      (i.ServiceLogs h s lines log).1 = some (result, none) ∧
      (((strings.Split out "\n").length : Int) ≤ lines → result = strings.Split out "\n") ∧
      (lines < ((strings.Split out "\n").length : Int) →
        result = (strings.Split out "\n").drop
          ((strings.Split out "\n").length - lines.toNat)) ∧
      result <:+ strings.Split out "\n" ∧
      result.length = min (strings.Split out "\n").length lines.toNat := by
  generalize hrows : strings.Split out "\n" = rows
  obtain ⟨k, rfl⟩ := Int.eq_ofNat_of_zero_le hlines
  by_cases hlt : (rows.length : Int) > (k : Int)
  · have hk : k < rows.length := by exact_mod_cast hlt
    refine ⟨rows.drop (rows.length - k), ?_, ?_, ?_, List.drop_suffix _ _, ?_⟩
    · have hlow : ((rows.length : Int) - (k : Int)).toNat = rows.length - k := by omega
      have hnot : ¬ ((rows.length : Int) - (k : Int) < 0
          ∨ (rows.length : Int) < (rows.length : Int) - (k : Int)) := by omega
      simp [Launchd.ServiceLogs, ContextRunner.doExecOutput, hok, hrows, hlt, sliceFrom,
        hnot, hlow]
      omega
    · intro hle
      omega
    · intro _
      simp
    · simp [List.length_drop]
      omega
  · have hk : rows.length ≤ k := by
      have : (rows.length : Int) ≤ (k : Int) := by omega
      exact_mod_cast this
    refine ⟨rows, ?_, ?_, ?_, List.suffix_refl _, ?_⟩
    · simp [Launchd.ServiceLogs, ContextRunner.doExecOutput, hok, hrows, hlt]
    · intro _
      rfl
    · intro hlt2
      have : (k : Int) < (rows.length : Int) := by simpa using hlt2
      omega
    · simp
      omega

/-- C9 at a concrete input: the output `a\nb\nc\n` splits into the four rows `a`, `b`,
`c` and the empty row, and for `lines = 2` the last two of them are returned with a
nil error. -/
theorem serviceLogs_returns_last_lines_witness :
    (Launchd.ServiceLogs {} (logRunner "a\nb\nc\n") "nginx" 2 []).1
      = some (["c", ""], none) := by
  obtain ⟨result, h1, -, h3, -, -⟩ :=
    serviceLogs_returns_last_lines {} (logRunner "a\nb\nc\n") "nginx" 2 [] "a\nb\nc\n"
      (by decide) rfl
  rw [h1, h3 (by decide)]
  decide

end Rig
